import Mathlib

/-!
Shallow embedding of the CITAM JavaScript client (citamjs) for verification.

The embedding covers:
* the Vuex store in `src/citamjs/src/store/index.js` (state, mutations, and the
  `fetchSimulationData` / `getTrajectoryData` actions, modelled as the lists of
  commits they perform);
* the data service in `src/citamjs/src/script/data_service.js` (the memoized
  `getSummary` with its `_SUMMARY_CACHE`);
* the clock widget in `src/citamjs/src/script/utils/timer.js`
  (`Timer.updateClock` and `zeroPad`) and the `SimpleHeat.add` heat-map
  accumulator from the same file;
* the 2D map animation (`Map2D._resetInterval`, `restartAnimation`, `setSpeed`);
* the per-agent contact statistics derivation (`getPairContacts`) including a
  model of lodash `union` / `sumBy` and of JavaScript `Number.toPrecision(2)`.

JavaScript numbers are modelled as `Int` / `Nat` where the code only ever holds
integers, and as `Rat` where fractional values occur.  Opaque payloads (JSON
blobs, DOM data) are a type parameter `V`.
-/

namespace Citam

/-- The status strings used by the store
(`fetchingSimulationData | fetchingTrajectoryData | error | mapReady | trajectoryReady`). -/
inductive StoreStatus where
  | fetchingSimulationData
  | fetchingTrajectoryData
  | error
  | mapReady
  | trajectoryReady
deriving DecidableEq, Repr

/-- An error-message value: either a literal string from the source or an
opaque error object (the `err` caught from a rejected promise). -/
inductive ErrMsg (V : Type) where
  | text (s : String)
  | obj (e : V)
deriving DecidableEq, Repr

/-- The store state of `src/citamjs/src/store/index.js`.  Every field starts as
`null` (`none`).  `V` is the type of opaque JSON/DOM payloads. -/
structure StoreState (V : Type) where
  facilities : Option V
  policyList : Option V
  statsList : Option V
  floorOptions : Option (List String)
  currentSimID : Option String
  trajectoryData : Option (List V)
  totalSteps : Option Int
  nAgents : Option Int
  mapData : Option V
  scaleMultiplier : Option V
  status : Option StoreStatus
  errorMessage : Option (ErrMsg V)
  fetchingStartTime : Option V
  currentStep : Option Int
  currentFloor : Option String
deriving DecidableEq, Repr

/-- The initial store state: all fields `null`. -/
def initialState (V : Type) : StoreState V :=
  ⟨none, none, none, none, none, none, none, none, none, none, none, none,
   none, none, none⟩

/-- The mutations of the store, with their payloads. -/
inductive Mutation (V : Type) where
  | setFacilities (p : V)
  | setPolicyList (p : V)
  | setStatsList (p : V)
  | setFloorOptions (p : List String)
  | setTrajectoryData (p : Option (List V))
  | setNumberOfAgents (p : Int)
  | setTotalSteps (p : Int)
  | setMapData (p : V)
  | setScaleMultiplier (p : V)
  | setSimulationID (p : String)
  | setCurrentFloor (p : Option String)
  | setCurrentStep (p : Int)
  | setFetchingStartTime (p : V)
  | updateStatus (st : StoreStatus) (msg : Option (ErrMsg V))
  | removeMapData
  | removeTrajectoryData
deriving DecidableEq, Repr

/-- Apply one mutation to the state, exactly as the mutation handlers in
`store/index.js` write the state.  `updateStatus` writes both `status` and
`errorMessage`; `removeMapData` resets `mapData`, `status`, `currentFloor`;
`removeTrajectoryData` resets `trajectoryData`, sets `status` to `mapReady`
and resets `currentFloor`. -/
def commit {V : Type} (m : Mutation V) (s : StoreState V) : StoreState V :=
  match m with
  | .setFacilities p => { s with facilities := some p }
  | .setPolicyList p => { s with policyList := some p }
  | .setStatsList p => { s with statsList := some p }
  | .setFloorOptions p => { s with floorOptions := some p }
  | .setTrajectoryData p => { s with trajectoryData := p }
  | .setNumberOfAgents p => { s with nAgents := some p }
  | .setTotalSteps p => { s with totalSteps := some p }
  | .setMapData p => { s with mapData := some p }
  | .setScaleMultiplier p => { s with scaleMultiplier := some p }
  | .setSimulationID p => { s with currentSimID := some p }
  | .setCurrentFloor p => { s with currentFloor := p }
  | .setCurrentStep p => { s with currentStep := some p }
  | .setFetchingStartTime p => { s with fetchingStartTime := some p }
  | .updateStatus st msg => { s with status := some st, errorMessage := msg }
  | .removeMapData => { s with mapData := none, status := none, currentFloor := none }
  | .removeTrajectoryData =>
      { s with trajectoryData := none, status := some .mapReady, currentFloor := none }

/-- Apply a list of commits left to right. -/
def commitAll {V : Type} (s : StoreState V) (ms : List (Mutation V)) : StoreState V :=
  ms.foldl (fun t m => commit m t) s

/-- The invariant claimed by the spec: `errorMessage` is non-null only when
`status` is `error`. -/
def ErrorOnlyWithErrorStatus {V : Type} (s : StoreState V) : Prop :=
  s.errorMessage ≠ none → s.status = some .error

instance {V : Type} [DecidableEq V] (s : StoreState V) :
    Decidable (ErrorOnlyWithErrorStatus s) := by
  unfold ErrorOnlyWithErrorStatus; infer_instance

/-- A floor entry of a summary response (`response.data.Floors`). -/
structure Floor where
  name : String
deriving DecidableEq, Repr

/-- The fields of a summary response (`response.data`) that
`fetchSimulationData` reads. -/
structure SummaryData (V : Type) where
  Floors : List Floor
  NumberOfAgents : Int
  TotalTimesteps : Int
  ScaleMultiplier : V
deriving DecidableEq, Repr

/-- The commits performed by the `fetchSimulationData` action once the summary
response `d` arrives, in program order: it first sets status
`fetchingSimulationData` and the fetching start time, then stores the floor
options, agent count, total steps and scale multiplier from the response, and
finally — if `NumberOfAgents < 1` or `TotalTimesteps < 0` — sets status
`error` with the literal message.  (The `getBaseMap` continuation commits
`setMapData` / `mapReady` only when the base-map response arrives later; those
asynchronous commits are not part of this synchronous handler.) -/
def fetchSimulationDataCommits {V : Type} (d : SummaryData V) (now : V) :
    List (Mutation V) :=
  [.updateStatus .fetchingSimulationData none,
   .setFetchingStartTime now,
   .setFloorOptions (d.Floors.map (fun x => x.name)),
   .setNumberOfAgents d.NumberOfAgents,
   .setTotalSteps d.TotalTimesteps,
   .setScaleMultiplier d.ScaleMultiplier] ++
  (if d.NumberOfAgents < 1 ∨ d.TotalTimesteps < 0 then
    [.updateStatus .error (some (.text "Number of agents or total steps is zero."))]
   else [])

/-- `Math.ceil(1e8 / nAgents)` for an integral `nAgents ≥ 1`: the ceiling
division `⌈100000000 / n⌉`. -/
def maxChunkSize (n : ℕ) : ℕ :=
  (100000000 + n - 1) / n

/-- The `while (first_timestep < totalSteps)` loop of `getTrajectoryData`,
collecting the offsets at which trajectory requests are issued.  The loop
advances `first` by `c` (`max_chunk_size`) each iteration; `fuel` bounds the
number of iterations (the loop itself terminates because `c ≥ 1`). -/
def offsetsLoop : ℕ → ℕ → ℕ → ℕ → List ℕ
  | 0, _, _, _ => []
  | fuel + 1, first, c, total =>
      if first < total then first :: offsetsLoop fuel (first + c) c total else []

/-- The offsets of the trajectory requests issued by `getTrajectoryData` for
`nAgents = n` and `totalSteps = total`: starting at `0`, stepping by
`maxChunkSize n`, while the offset is `< total`.  (`total` iterations of fuel
always suffice since the step is at least `1`.) -/
def requestOffsets (n total : ℕ) : List ℕ :=
  offsetsLoop total 0 (maxChunkSize n) total

/-- The commits performed by `getTrajectoryData` when every chunk request
resolves, with `chunks o` the payload array (`chunk.data.data`) of the request
at offset `o`: the local `trajectories` array is the concatenation of the chunk
payloads in request order, stored by `setTrajectoryData`, then `totalSteps` is
replaced by its length and status becomes `trajectoryReady`. -/
def getTrajectoryDataOkCommits {V : Type} (chunks : ℕ → List V) (s : StoreState V) :
    List (Mutation V) :=
  let n := (s.nAgents.getD 0).toNat
  let total := (s.totalSteps.getD 0).toNat
  let trajectories := (List.map chunks (requestOffsets n total)).flatten
  [.updateStatus .fetchingTrajectoryData none,
   .setTrajectoryData (some trajectories),
   .setTotalSteps (trajectories.length : Int),
   .updateStatus .trajectoryReady none]

/-- The commits performed by `getTrajectoryData` when `Promise.all` rejects
with error `err`: the `.catch` handler clears `trajectoryData` and sets status
`error` with `err`; execution then RESUMES after the `await`, so the action
still commits `setTotalSteps 0` (the local `trajectories` array is still
empty) and finally `updateStatus trajectoryReady` with a null message. -/
def getTrajectoryDataFailCommits {V : Type} (err : ErrMsg V) : List (Mutation V) :=
  [.updateStatus .fetchingTrajectoryData none,
   .setTrajectoryData none,
   .updateStatus .error (some err),
   .setTotalSteps 0,
   .updateStatus .trajectoryReady none]

/-- The number of loop iterations remaining from offset `first`:
`⌈(total - first) / c⌉`. -/
def chunkCount (first c total : ℕ) : ℕ :=
  (total - first + c - 1) / c

theorem chunkCount_succ (first c total : ℕ) (hc : 0 < c) (h : first < total) :
    chunkCount first c total = chunkCount (first + c) c total + 1 := by
  unfold chunkCount
  have e1 : total - first + c - 1 = (total - first - 1) + c := by omega
  rw [e1, Nat.add_div_right _ hc]
  congr 1
  by_cases hcc : first + c ≤ total
  · have e2 : total - (first + c) + c - 1 = total - first - 1 := by omega
    rw [e2]
  · have e2 : total - (first + c) + c - 1 = c - 1 := by omega
    rw [e2, Nat.div_eq_of_lt (by omega), Nat.div_eq_of_lt (by omega)]

theorem chunkCount_zero (first c total : ℕ) (hc : 0 < c) (h : total ≤ first) :
    chunkCount first c total = 0 := by
  unfold chunkCount
  have e1 : total - first + c - 1 = c - 1 := by omega
  rw [e1, Nat.div_eq_of_lt (by omega)]

/-- Closed form of the request loop: provided the step `c` is positive and the
fuel covers the remaining distance, the loop produces the arithmetic
progression `first, first + c, first + 2c, …` of length `chunkCount`. -/
theorem offsetsLoop_eq :
    ∀ (fuel first c total : ℕ), 0 < c → total ≤ first + fuel →
      offsetsLoop fuel first c total =
        (List.range (chunkCount first c total)).map (fun k => first + k * c)
  | 0, first, c, total, hc, hle => by
      rw [chunkCount_zero first c total hc (by omega)]
      simp [offsetsLoop]
  | fuel + 1, first, c, total, hc, hle => by
      by_cases h : first < total
      · simp only [offsetsLoop, if_pos h]
        rw [chunkCount_succ first c total hc h, List.range_succ_eq_map,
          List.map_cons, List.map_map,
          offsetsLoop_eq fuel (first + c) c total hc (by omega)]
        simp only [Nat.zero_mul, Nat.add_zero]
        congr 1
        apply List.map_congr_left
        intro k _
        simp only [Function.comp_apply, Nat.succ_eq_add_one]
        ring
      · rw [chunkCount_zero first c total hc (by omega)]
        simp [offsetsLoop, h]

theorem maxChunkSize_pos (n : ℕ) (hn : 0 < n) : 0 < maxChunkSize n := by
  unfold maxChunkSize
  rw [Nat.lt_iff_add_one_le, Nat.one_le_div_iff hn]; omega

/-- Closed form of `requestOffsets`: the ascending multiples
`0, c, 2c, …, (chunkCount 0 c total - 1) * c` of the chunk size. -/
theorem requestOffsets_eq (n total : ℕ) (hn : 0 < n) :
    requestOffsets n total =
      (List.range (chunkCount 0 (maxChunkSize n) total)).map
        (fun k => k * maxChunkSize n) := by
  rw [requestOffsets,
    offsetsLoop_eq total 0 (maxChunkSize n) total (maxChunkSize_pos n hn) (by omega)]
  simp

/-- Membership characterization: the loop issues a request exactly at each
multiple of the chunk size strictly below `total`. -/
theorem requestOffsets_mem (n total o : ℕ) (hn : 0 < n) :
    o ∈ requestOffsets n total ↔ maxChunkSize n ∣ o ∧ o < total := by
  have hc := maxChunkSize_pos n hn
  rw [requestOffsets_eq n total hn]
  simp only [List.mem_map, List.mem_range]
  constructor
  · rintro ⟨k, hk, rfl⟩
    refine ⟨Dvd.intro_left k rfl, ?_⟩
    unfold chunkCount at hk
    by_contra hca
    have hmc : maxChunkSize n * k = k * maxChunkSize n := Nat.mul_comm _ _
    have h2 : total - 0 + maxChunkSize n - 1 < maxChunkSize n * (k + 1) := by
      rw [Nat.mul_add]; omega
    have h3 := Nat.div_lt_of_lt_mul h2
    omega
  · rintro ⟨⟨k, rfl⟩, hlt⟩
    refine ⟨k, ?_, by ring⟩
    unfold chunkCount
    rw [Nat.lt_iff_add_one_le, Nat.le_div_iff_mul_le hc, Nat.add_mul]
    have hmc : maxChunkSize n * k = k * maxChunkSize n := Nat.mul_comm _ _
    omega

/-- A mutation follows the store's error-message discipline when it is neither
`removeMapData` nor `removeTrajectoryData` and, if it is `updateStatus`, its
message payload is null unless its status payload is `error` (the only
`updateStatus` payload shapes the store's actions ever commit). -/
def PreservesErrorDiscipline {V : Type} : Mutation V → Prop
  | .updateStatus st msg => msg ≠ none → st = .error
  | .removeMapData => False
  | .removeTrajectoryData => False
  | _ => True

instance {V : Type} [DecidableEq V] : (m : Mutation V) → Decidable (PreservesErrorDiscipline m)
  | .setFacilities _ => .isTrue trivial
  | .setPolicyList _ => .isTrue trivial
  | .setStatsList _ => .isTrue trivial
  | .setFloorOptions _ => .isTrue trivial
  | .setTrajectoryData _ => .isTrue trivial
  | .setNumberOfAgents _ => .isTrue trivial
  | .setTotalSteps _ => .isTrue trivial
  | .setMapData _ => .isTrue trivial
  | .setScaleMultiplier _ => .isTrue trivial
  | .setSimulationID _ => .isTrue trivial
  | .setCurrentFloor _ => .isTrue trivial
  | .setCurrentStep _ => .isTrue trivial
  | .setFetchingStartTime _ => .isTrue trivial
  | .updateStatus st msg => inferInstanceAs (Decidable (msg ≠ none → st = .error))
  | .removeMapData => .isFalse id
  | .removeTrajectoryData => .isFalse id

theorem commit_preserves_error_discipline {V : Type} (m : Mutation V)
    (s : StoreState V) (hm : PreservesErrorDiscipline m)
    (hs : ErrorOnlyWithErrorStatus s) :
    ErrorOnlyWithErrorStatus (commit m s) := by
  cases m <;>
    simp_all [PreservesErrorDiscipline, commit, ErrorOnlyWithErrorStatus]

theorem commitAll_preserves_error_discipline {V : Type} (ms : List (Mutation V)) :
    ∀ s : StoreState V, (∀ m ∈ ms, PreservesErrorDiscipline m) →
      ErrorOnlyWithErrorStatus s → ErrorOnlyWithErrorStatus (commitAll s ms) := by
  induction ms with
  | nil => intro s _ hs; exact hs
  | cons m ms ih =>
      intro s hms hs
      exact ih (commit m s) (fun x hx => hms x (List.mem_cons_of_mem m hx))
        (commit_preserves_error_discipline m s (hms m (List.mem_cons_self m ms)) hs)

/-- C6 (amended): on states reached from the initial state by mutations that
follow the store's error-message discipline — which excludes `removeMapData`
and `removeTrajectoryData`, since those reset `status` without clearing
`errorMessage` — the invariant "`errorMessage` is non-null only when `status`
is `error`" holds. -/
theorem reachable_errorMessage_only_with_error_status {V : Type}
    (ms : List (Mutation V)) (hms : ∀ m ∈ ms, PreservesErrorDiscipline m) :
    ErrorOnlyWithErrorStatus (commitAll (initialState V) ms) :=
  commitAll_preserves_error_discipline ms (initialState V) hms
    (fun h => absurd rfl h)

theorem reachable_errorMessage_only_with_error_status_witness :
    (∀ m ∈ ([.updateStatus .error (some (.text "Unable to fetch data.")),
             .setCurrentStep 1] : List (Mutation Unit)), PreservesErrorDiscipline m) ∧
    ErrorOnlyWithErrorStatus
      (commitAll (initialState Unit)
        [.updateStatus .error (some (.text "Unable to fetch data.")),
         .setCurrentStep 1]) :=
  ⟨by decide,
   reachable_errorMessage_only_with_error_status
     [.updateStatus .error (some (.text "Unable to fetch data.")),
      .setCurrentStep 1] (by decide)⟩

/-- C6 fails as stated: `removeMapData` is a store mutation, yet applied after
an error it resets `status` to null while leaving `errorMessage` set, so it
does not preserve the predicate; the violating state is reachable in two
mutations from the initial state. -/
theorem removeMapData_breaks_errorMessage_invariant :
    ¬ ErrorOnlyWithErrorStatus
        (commitAll (initialState Unit)
          [.updateStatus .error (some (.text "Unable to fetch data.")),
           .removeMapData]) := by
  decide

/-- C5: if the summary response reports fewer than one agent or a negative
total step count, `fetchSimulationData` commits status `error` with the
literal message "Number of agents or total steps is zero.". -/
theorem fetchSimulationData_degenerate_error {V : Type} (d : SummaryData V)
    (now : V) (s : StoreState V)
    (h : d.NumberOfAgents < 1 ∨ d.TotalTimesteps < 0) :
    (commitAll s (fetchSimulationDataCommits d now)).status = some .error ∧
    (commitAll s (fetchSimulationDataCommits d now)).errorMessage =
      some (.text "Number of agents or total steps is zero.") := by
  simp [fetchSimulationDataCommits, if_pos h, commitAll, commit]

/-- A degenerate summary: zero agents, 100 timesteps. -/
def exampleSummary : SummaryData Unit := ⟨[⟨"Floor1"⟩], 0, 100, ()⟩

theorem fetchSimulationData_degenerate_error_witness :
    (exampleSummary.NumberOfAgents < 1 ∨ exampleSummary.TotalTimesteps < 0) ∧
    (commitAll (initialState Unit)
        (fetchSimulationDataCommits exampleSummary ())).status = some .error ∧
    (commitAll (initialState Unit)
        (fetchSimulationDataCommits exampleSummary ())).errorMessage =
      some (.text "Number of agents or total steps is zero.") :=
  ⟨Or.inl (by decide),
   fetchSimulationData_degenerate_error exampleSummary () (initialState Unit)
     (Or.inl (by decide))⟩

/-- C2 (amended): when a trajectory chunk request fails, the `.catch` handler
does set status `error` carrying the underlying error and clears
`trajectoryData` to null — but that error status is transient, not terminal:
the action resumes after the `await`, commits `setTotalSteps 0`, and ends with
status `trajectoryReady` and a null error message (with `trajectoryData` still
null). -/
theorem getTrajectoryData_failure_transient_error {V : Type} (err : ErrMsg V)
    (s : StoreState V) :
    ((commitAll s ((getTrajectoryDataFailCommits err).take 3)).status
        = some .error ∧
      (commitAll s ((getTrajectoryDataFailCommits err).take 3)).errorMessage
        = some err ∧
      (commitAll s ((getTrajectoryDataFailCommits err).take 3)).trajectoryData
        = none) ∧
    (commitAll s (getTrajectoryDataFailCommits err)).trajectoryData = none ∧
    (commitAll s (getTrajectoryDataFailCommits err)).totalSteps = some 0 ∧
    (commitAll s (getTrajectoryDataFailCommits err)).status
      = some .trajectoryReady ∧
    (commitAll s (getTrajectoryDataFailCommits err)).errorMessage = none := by
  simp [getTrajectoryDataFailCommits, commitAll, commit]

/-- C2 fails as stated: on a chunk-request failure the action does not END
with status `error`; it ends with status `trajectoryReady` (and a cleared
error message), because execution continues past the rejected `Promise.all`. -/
theorem getTrajectoryData_failure_terminal_status_not_error :
    (commitAll (initialState Unit)
        (getTrajectoryDataFailCommits (.text "Network Error"))).status
      ≠ some StoreStatus.error ∧
    (commitAll (initialState Unit)
        (getTrajectoryDataFailCommits (.text "Network Error"))).status
      = some StoreStatus.trajectoryReady := by
  decide

/-- C1: with `nAgents = n ≥ 1` and `totalSteps = total > 0` in the store,
`getTrajectoryData` computes chunk size `⌈100000000 / n⌉` and issues one
trajectory request per chunk: the request offsets are exactly the ascending
multiples `0, c, 2c, …` of the chunk size that are strictly below `total`;
after all chunks resolve the store holds, as `trajectoryData`, the
concatenation of the chunk payloads in request order, `totalSteps` is replaced
by that concatenation's length, and status is `trajectoryReady`. -/
theorem getTrajectoryData_chunking_and_assembly {V : Type} (chunks : ℕ → List V)
    (s : StoreState V) (n total : ℕ) (hn : 1 ≤ n) (ht : 0 < total)
    (hA : s.nAgents = some (n : Int)) (hT : s.totalSteps = some (total : Int)) :
    (∀ o : ℕ, o ∈ requestOffsets n total ↔ maxChunkSize n ∣ o ∧ o < total) ∧
    requestOffsets n total =
      (List.range (chunkCount 0 (maxChunkSize n) total)).map
        (fun k => k * maxChunkSize n) ∧
    List.Pairwise (· < ·) (requestOffsets n total) ∧
    (commitAll s (getTrajectoryDataOkCommits chunks s)).trajectoryData =
      some ((requestOffsets n total).map chunks).flatten ∧
    (commitAll s (getTrajectoryDataOkCommits chunks s)).totalSteps =
      some (((requestOffsets n total).map chunks).flatten.length : Int) ∧
    (commitAll s (getTrajectoryDataOkCommits chunks s)).status =
      some .trajectoryReady := by
  have hc := maxChunkSize_pos n hn
  refine ⟨fun o => requestOffsets_mem n total o hn, requestOffsets_eq n total hn,
    ?_, ?_, ?_, ?_⟩
  · rw [requestOffsets_eq n total hn, List.pairwise_map]
    exact (List.pairwise_lt_range _).imp (fun h => (mul_lt_mul_right hc).mpr h)
  all_goals
    simp [getTrajectoryDataOkCommits, commitAll, commit, hA, hT]

/-- The run of the spec's worked example: 2000 agents, 500000 total steps. -/
def exampleTrajState : StoreState Unit :=
  { initialState Unit with nAgents := some 2000, totalSteps := some 500000 }

/-- A chunk payload supplier for the worked example (every chunk carries two
frames). -/
def exampleChunks : ℕ → List Unit := fun _ => [(), ()]

theorem getTrajectoryData_chunking_and_assembly_witness :
    maxChunkSize 2000 = 50000 ∧
    requestOffsets 2000 500000 =
      [0, 50000, 100000, 150000, 200000, 250000, 300000, 350000,
       400000, 450000] ∧
    (450000 ∈ requestOffsets 2000 500000 ∧ ¬ 500000 ∈ requestOffsets 2000 500000) ∧
    (commitAll exampleTrajState
        (getTrajectoryDataOkCommits exampleChunks exampleTrajState)).totalSteps =
      some (((requestOffsets 2000 500000).map exampleChunks).flatten.length : Int) ∧
    (commitAll exampleTrajState
        (getTrajectoryDataOkCommits exampleChunks exampleTrajState)).status =
      some .trajectoryReady := by
  have base := getTrajectoryData_chunking_and_assembly exampleChunks exampleTrajState
    2000 500000 (by decide) (by decide) rfl rfl
  have hoff : requestOffsets 2000 500000 =
      [0, 50000, 100000, 150000, 200000, 250000, 300000, 350000,
       400000, 450000] := by
    rw [base.2.1]
    decide
  refine ⟨by decide, hoff, ?_, base.2.2.2.2.1, base.2.2.2.2.2⟩
  rw [hoff]
  decide

/-- The state of the data-service module (`data_service.js`): the
`_SUMMARY_CACHE` map, modelled as an association list in insertion order,
together with the number of network requests issued so far. -/
structure DataService (R : Type) where
  cache : List (String × R)
  requests : ℕ
deriving DecidableEq, Repr

/-- Lookup in `_SUMMARY_CACHE` (`has` / `get`): the binding for the key, if
any. -/
def cacheGet {R : Type} (cache : List (String × R)) (sim : String) : Option R :=
  (cache.find? (fun p => p.1 == sim)).map Prod.snd

/-- `getSummary`: if `_SUMMARY_CACHE` has the run id, resolve immediately from
cache with the cached response and no network request; otherwise issue
`axios.get`, whose (successful) response is `net sim`, store it in the cache,
and return it.  `net` is the network oracle giving the response for each run
id. -/
def getSummary {R : Type} (net : String → R) (sim : String)
    (ds : DataService R) : R × DataService R :=
  match cacheGet ds.cache sim with
  | some r => (r, ds)
  | none =>
      let r := net sim
      (r, ⟨ds.cache ++ [(sim, r)], ds.requests + 1⟩)

/-- Run a sequence of `getSummary` calls, keeping the final service state. -/
def runSummaryCalls {R : Type} (net : String → R) (sims : List String)
    (ds : DataService R) : DataService R :=
  sims.foldl (fun d s2 => (getSummary net s2 d).2) ds

theorem cacheGet_append_of_found {R : Type} (l l2 : List (String × R))
    (sim : String) (r : R) (h : cacheGet l sim = some r) :
    cacheGet (l ++ l2) sim = some r := by
  unfold cacheGet at h ⊢
  rcases ho : l.find? (fun p => p.1 == sim) with _ | p
  · rw [ho] at h; simp at h
  · rw [List.find?_append, ho]
    rw [ho] at h
    exact h

theorem cacheGet_getSummary_stable {R : Type} (net : String → R)
    (sim sim2 : String) (r : R) (ds : DataService R)
    (h : cacheGet ds.cache sim = some r) :
    cacheGet (getSummary net sim2 ds).2.cache sim = some r := by
  unfold getSummary
  rcases h2 : cacheGet ds.cache sim2 with _ | r2
  · exact cacheGet_append_of_found _ _ sim r h
  · exact h

theorem cacheGet_runSummaryCalls_stable {R : Type} (net : String → R)
    (sim : String) (r : R) :
    ∀ (sims : List String) (ds : DataService R),
      cacheGet ds.cache sim = some r →
      cacheGet (runSummaryCalls net sims ds).cache sim = some r
  | [], ds, h => h
  | sim2 :: sims, ds, h =>
      cacheGet_runSummaryCalls_stable net sim r sims _
        (cacheGet_getSummary_stable net sim sim2 r ds h)

theorem getSummary_of_cached {R : Type} (net : String → R) (sim : String)
    (ds : DataService R) (r : R) (h : cacheGet ds.cache sim = some r) :
    getSummary net sim ds = (r, ds) := by
  unfold getSummary
  rw [h]

theorem cacheGet_after_miss {R : Type} (net : String → R) (sim : String)
    (ds : DataService R) (h : cacheGet ds.cache sim = none) :
    cacheGet (getSummary net sim ds).2.cache sim = some (net sim) := by
  unfold getSummary
  rw [h]
  have ho : ds.cache.find? (fun p => p.1 == sim) = none := by
    rcases hf : ds.cache.find? (fun p => p.1 == sim) with _ | p
    · exact hf
    · unfold cacheGet at h; rw [hf] at h; simp at h
  show cacheGet (ds.cache ++ [(sim, net sim)]) sim = some (net sim)
  unfold cacheGet
  rw [List.find?_append, ho]
  simp [List.find?]

/-- C3: for a run id not yet cached, the first `getSummary` call issues
exactly one network request and caches the response; a second sequential call
resolves with the identical response and leaves the service state (cache and
request count) untouched; and after any sequence of later `getSummary` calls
the run id still resolves to that first response from the cache, with no
further network round trip (the service state is unchanged by the lookup). -/
theorem getSummary_memoized {R : Type} (net : String → R) (sim : String)
    (ds : DataService R) (h : cacheGet ds.cache sim = none) :
    (getSummary net sim ds).2.requests = ds.requests + 1 ∧
    (getSummary net sim (getSummary net sim ds).2).1 = (getSummary net sim ds).1 ∧
    (getSummary net sim (getSummary net sim ds).2).2 = (getSummary net sim ds).2 ∧
    (∀ sims : List String,
      (getSummary net sim
          (runSummaryCalls net sims (getSummary net sim ds).2)).1 =
        (getSummary net sim ds).1 ∧
      (getSummary net sim
          (runSummaryCalls net sims (getSummary net sim ds).2)).2 =
        runSummaryCalls net sims (getSummary net sim ds).2) := by
  have hfst : (getSummary net sim ds).1 = net sim := by
    unfold getSummary; rw [h]
  have hc := cacheGet_after_miss net sim ds h
  refine ⟨by unfold getSummary; rw [h], ?_, ?_, ?_⟩
  · rw [getSummary_of_cached net sim _ (net sim) hc, hfst]
  · rw [getSummary_of_cached net sim _ (net sim) hc]
  · intro sims
    have hs := cacheGet_runSummaryCalls_stable net sim (net sim) sims _ hc
    rw [getSummary_of_cached net sim _ (net sim) hs, hfst]
    exact ⟨rfl, rfl⟩

theorem getSummary_memoized_witness :
    cacheGet (DataService.cache (R := ℕ) ⟨[], 0⟩) "run1" = none ∧
    (getSummary (fun _ => 7) "run1" (⟨[], 0⟩ : DataService ℕ)).2.requests = 0 + 1 ∧
    (getSummary (fun _ => 7) "run1"
        (getSummary (fun _ => 7) "run1" (⟨[], 0⟩ : DataService ℕ)).2).1 =
      (getSummary (fun _ => 7) "run1" (⟨[], 0⟩ : DataService ℕ)).1 ∧
    (getSummary (fun _ => 7) "run1"
        (runSummaryCalls (fun _ => 7) ["a", "run1", "b"]
          (getSummary (fun _ => 7) "run1" (⟨[], 0⟩ : DataService ℕ)).2)).1 =
      (getSummary (fun _ => 7) "run1" (⟨[], 0⟩ : DataService ℕ)).1 := by
  have base := getSummary_memoized (fun _ => 7) "run1" (⟨[], 0⟩ : DataService ℕ)
    (by decide)
  exact ⟨by decide, base.1, base.2.1, (base.2.2.2 ["a", "run1", "b"]).1⟩

/-- The timer's start-of-day 08:00:00 in total seconds
(`startTimeTotSeconds = hour*60*60 + minute*60 + second` for `08:00:00`). -/
def startTimeTotSeconds : ℕ := 8 * 60 * 60 + 0 * 60 + 0

/-- `zeroPad`: convert to decimal, prepend "00", and keep the last two
characters. -/
def zeroPad (number : ℕ) : String :=
  let strNum := "00" ++ toString number
  strNum.drop (strNum.length - 2)

/-- The four text fields of the clock widget (hours, minutes, seconds and the
AM/PM indicator). -/
structure ClockDisplay where
  hours : String
  minutes : String
  seconds : String
  ampm : String
deriving DecidableEq, Repr

/-- `Timer.updateClock` for `currentStep = s` and `lengthOfStep = L`:
`rawSeconds = s*L + startTimeTotSeconds`, seconds `rawSeconds % 60`, minutes
`(rawSeconds / 60) % 60`, hours `(rawSeconds / 60) / 60`; when `hours ≥ 13`
the displayed hour is `hours - 13` with indicator "PM", otherwise `hours`
with "AM". -/
def updateClock (currentStep lengthOfStep : ℕ) : ClockDisplay :=
  let timestepSeconds := currentStep * lengthOfStep
  let rawSeconds := timestepSeconds + startTimeTotSeconds
  let seconds := rawSeconds % 60
  let rawMinutes := rawSeconds / 60
  let minutes := rawMinutes % 60
  let hours := rawMinutes / 60
  if hours ≥ 13 then
    ⟨zeroPad (hours - 13), zeroPad minutes, zeroPad seconds, "PM"⟩
  else
    ⟨zeroPad hours, zeroPad minutes, zeroPad seconds, "AM"⟩

/-- Modelled from the spec's words, for comparison with `updateClock`: the
time derived from total seconds `08:00:00 + s*L`, with seconds and minutes
taken modulo 60 and zero-padded to two digits, and with the displayed hour
equal to the computed hour (`total / 3600`) minus 13 together with indicator
"PM" whenever the computed hour is at least 13, and the computed hour with
"AM" otherwise. -/
def clockSpec (s L : ℕ) : ClockDisplay :=
  let total := 8 * 60 * 60 + s * L
  let computedHour := total / 3600
  if computedHour ≥ 13 then
    ⟨zeroPad (computedHour - 13), zeroPad (total / 60 % 60), zeroPad (total % 60), "PM"⟩
  else
    ⟨zeroPad computedHour, zeroPad (total / 60 % 60), zeroPad (total % 60), "AM"⟩

/-- C8: for every timestep `s` and step length `L`, the clock widget displays
exactly the time the spec describes: total seconds `08:00:00 + s*L`, seconds
and minutes modulo 60 zero-padded to two digits, and a 13-hour wrap — the
displayed hour is the computed hour minus 13 with "PM" whenever the computed
hour is at least 13, and the computed hour with "AM" otherwise. -/
theorem updateClock_eq_clockSpec (s L : ℕ) : updateClock s L = clockSpec s L := by
  have hdd : ∀ t : ℕ, t / 60 / 60 = t / 3600 := by
    intro t
    rw [Nat.div_div_eq_div_mul]
  have hc : s * L + startTimeTotSeconds = 8 * 60 * 60 + s * L := by
    unfold startTimeTotSeconds; ring
  simp only [updateClock, clockSpec, hc, hdd]

/-- A JavaScript arithmetic result: an (integral) number or `NaN`. -/
inductive JSNum where
  | nan
  | num (v : Int)
deriving DecidableEq, Repr

/-- `this._data[point_key] + 1`, where looking up an absent key yields
`undefined`: `undefined + 1` evaluates to `NaN`, and `v + 1` otherwise. -/
def jsPlusOne : Option Int → JSNum
  | none => .nan
  | some v => .num (v + 1)

/-- `x || 0`: `NaN` and `0` are falsy and yield `0`; any other number is
returned unchanged. -/
def jsOrZero : JSNum → Int
  | .nan => 0
  | .num v => if v = 0 then 0 else v

/-- Write `key ↦ v` into a JavaScript-object-as-map, replacing an existing
binding or appending a new one. -/
def setKey {A : Type} (k : String) (v : A) : List (String × A) → List (String × A)
  | [] => [(k, v)]
  | (k2, v2) :: rest => if k2 = k then (k, v) :: rest else (k2, v2) :: setKey k v rest

theorem cacheGet_cons_self {A : Type} (k : String) (v : A)
    (l : List (String × A)) : cacheGet ((k, v) :: l) k = some v := by
  unfold cacheGet
  rw [List.find?_cons_of_pos]
  · rfl
  · simp

theorem cacheGet_cons_ne {A : Type} (k k2 : String) (v2 : A)
    (l : List (String × A)) (hk : k2 ≠ k) :
    cacheGet ((k2, v2) :: l) k = cacheGet l k := by
  unfold cacheGet
  rw [List.find?_cons_of_neg]
  simp [hk]

theorem cacheGet_setKey {A : Type} (k : String) (v : A) :
    ∀ l : List (String × A), cacheGet (setKey k v l) k = some v
  | [] => by
      simp only [setKey]
      exact cacheGet_cons_self k v []
  | (k2, v2) :: rest => by
      simp only [setKey]
      by_cases hk : k2 = k
      · rw [if_pos hk]
        exact cacheGet_cons_self k v rest
      · rw [if_neg hk, cacheGet_cons_ne k k2 v2 _ hk]
        exact cacheGet_setKey k v rest

/-- The mutable state of the `SimpleHeat` accumulator: the `_data` map from
`"x_y"` keys to weights, and `_max`. -/
structure SimpleHeat where
  dataMap : List (String × Int)
  maxVal : Int
deriving DecidableEq, Repr

/-- The `"x_y"` key of a point (template literal over its coordinates). -/
def pointKey (point : Int × Int) : String :=
  toString point.1 ++ "_" ++ toString point.2

/-- `SimpleHeat.add(point)`:
`this._data[point_key] = this._data[point_key] + 1 || 0`. -/
def SimpleHeat.add (h : SimpleHeat) (point : Int × Int) : SimpleHeat :=
  let point_key := pointKey point
  { h with dataMap :=
      setKey point_key (jsOrZero (jsPlusOne (cacheGet h.dataMap point_key))) h.dataMap }

/-- `n` consecutive `add` calls for the same point. -/
def SimpleHeat.addN (h : SimpleHeat) (point : Int × Int) : ℕ → SimpleHeat
  | 0 => h
  | n + 1 => (SimpleHeat.addN h point n).add point

theorem SimpleHeat.addN_weight (h : SimpleHeat) (point : Int × Int)
    (habs : cacheGet h.dataMap (pointKey point) = none) :
    ∀ n : ℕ, 1 ≤ n →
      cacheGet ((h.addN point n).dataMap) (pointKey point) = some ((n : Int) - 1)
  | 1, _ => by
      show cacheGet (setKey (pointKey point)
          (jsOrZero (jsPlusOne (cacheGet h.dataMap (pointKey point)))) h.dataMap)
          (pointKey point) = some ((1 : Int) - 1)
      rw [habs, cacheGet_setKey]
      norm_num [jsPlusOne, jsOrZero]
  | n + 2, _ => by
      have ih := SimpleHeat.addN_weight h point habs (n + 1) (by omega)
      show cacheGet (setKey (pointKey point)
          (jsOrZero (jsPlusOne
            (cacheGet (h.addN point (n + 1)).dataMap (pointKey point))))
          (h.addN point (n + 1)).dataMap) (pointKey point) =
        some ((↑(n + 2) : Int) - 1)
      rw [ih, cacheGet_setKey]
      have hne : ((↑(n + 1) : Int) - 1) + 1 ≠ 0 := by
        push_cast
        omega
      simp only [jsPlusOne, jsOrZero, if_neg hne]
      congr 1
      push_cast
      ring

/-- C10: `SimpleHeat.add` on a point whose `"x_y"` key is absent stores weight
`0` (because `undefined + 1` is `NaN` and `NaN || 0` is `0`), so after
`n ≥ 1` consecutive `add` calls for the same point the stored weight is
`n - 1`; in particular a point added exactly once carries zero weight. -/
theorem SimpleHeat.add_starts_at_zero (h : SimpleHeat) (point : Int × Int)
    (habs : cacheGet h.dataMap (pointKey point) = none) (n : ℕ) (hn : 1 ≤ n) :
    cacheGet ((h.addN point n).dataMap) (pointKey point) = some ((n : Int) - 1) ∧
    cacheGet ((h.addN point 1).dataMap) (pointKey point) = some 0 := by
  refine ⟨SimpleHeat.addN_weight h point habs n hn, ?_⟩
  have h1 := SimpleHeat.addN_weight h point habs 1 (by omega)
  simpa using h1

theorem SimpleHeat.add_starts_at_zero_witness :
    cacheGet (SimpleHeat.dataMap ⟨[], 1⟩) (pointKey (3, 4)) = none ∧
    (1 : ℕ) ≤ 3 ∧
    cacheGet ((SimpleHeat.addN ⟨[], 1⟩ (3, 4) 3).dataMap) (pointKey (3, 4)) =
      some ((3 : Int) - 1) :=
  ⟨by decide, by decide,
   (SimpleHeat.add_starts_at_zero ⟨[], 1⟩ (3, 4) (by decide) 3 (by decide)).1⟩

/-- The fields of `Map2D` the animation logic touches.  `trajectories` holds
the per-frame data (one entry per timestep); `contactCircles` counts the
circles currently drawn in the `g#contacts` layer; `installedInterval` is the
delay of the timer installed by `setInterval` (absent when the animation is
stopped); `timerStep` is the step last pushed to the clock widget by
`update`. -/
structure Map2D (Frame : Type) where
  currentStep : ℕ
  trajectories : List Frame
  contactCircles : ℕ
  animationInterval : ℚ
  installedInterval : Option ℚ
  timerStep : ℕ
  floor : String
  scaleFactor : ℚ
  colorDomain : ℚ × ℚ
deriving DecidableEq, Repr

/-- `Map2D.update`: redraw the current frame and push `currentStep` to the
timer.  It changes neither `currentStep` nor the contact layer
(`_updateContacts` is entirely commented out in the source, and
`_updateTrajectories` draws only into `g#trajectories`). -/
def Map2D.update {F : Type} (m : Map2D F) : Map2D F :=
  { m with timerStep := m.currentStep }

/-- `Map2D.restartAnimation`: reset `currentStep` to 0, remove every circle of
the `g#contacts` layer, and `update`. -/
def Map2D.restartAnimation {F : Type} (m : Map2D F) : Map2D F :=
  Map2D.update { m with currentStep := 0, contactCircles := 0 }

/-- One tick of the callback installed by `Map2D._resetInterval`: increment
`currentStep`; if it reaches the trajectory length
(`currentStep >= trajectories.length`), `restartAnimation`; then `update`. -/
def Map2D.tick {F : Type} (m : Map2D F) : Map2D F :=
  let m1 := { m with currentStep := m.currentStep + 1 }
  let m2 :=
    if m1.trajectories.length ≤ m1.currentStep then m1.restartAnimation else m1
  m2.update

/-- `Map2D._resetInterval`: clear the installed timer and install a new one
firing `tick` every `animationInterval` milliseconds. -/
def Map2D.resetInterval {F : Type} (m : Map2D F) : Map2D F :=
  { m with installedInterval := some m.animationInterval }

/-- `Map2D.setSpeed(newSpeed)`: set `animationInterval = 1000 / newSpeed`,
then `_resetInterval`. -/
def Map2D.setSpeed {F : Type} (m : Map2D F) (newSpeed : ℚ) : Map2D F :=
  Map2D.resetInterval { m with animationInterval := 1000 / newSpeed }

/-- C7: from any in-range frame (`currentStep < N` on a trajectory of length
`N`, hence `N ≥ 1`), a timer tick advances the frame index by exactly one,
except that when the incremented index reaches `N` it is reset to 0 with the
drawn contact markers cleared; the index observed after the tick is again
strictly below `N`, so playback never indexes past the trajectory. -/
theorem Map2D.tick_stays_in_range {F : Type} (m : Map2D F)
    (h : m.currentStep < m.trajectories.length) :
    (Map2D.tick m).currentStep =
      (if m.currentStep + 1 = m.trajectories.length then 0
       else m.currentStep + 1) ∧
    (Map2D.tick m).currentStep < m.trajectories.length ∧
    (m.currentStep + 1 = m.trajectories.length →
      (Map2D.tick m).contactCircles = 0) ∧
    (Map2D.tick m).trajectories = m.trajectories := by
  unfold Map2D.tick Map2D.restartAnimation Map2D.update
  by_cases hw : m.trajectories.length ≤ m.currentStep + 1
  · have he : m.currentStep + 1 = m.trajectories.length := by omega
    simp only [hw, if_pos, if_true, he]
    simp [he]
    omega
  · have hne : ¬ (m.currentStep + 1 = m.trajectories.length) := by omega
    simp only [hw, if_false, hne]
    simp [hw, hne]
    omega

theorem Map2D.tick_stays_in_range_witness :
    ((⟨2, [0, 1, 2], 5, 100, none, 2, "1", 1, (0, 0)⟩ : Map2D ℕ).currentStep <
      (⟨2, [0, 1, 2], 5, 100, none, 2, "1", 1, (0, 0)⟩ : Map2D ℕ).trajectories.length) ∧
    (Map2D.tick (⟨2, [0, 1, 2], 5, 100, none, 2, "1", 1, (0, 0)⟩ : Map2D ℕ)).currentStep =
      (if 2 + 1 = 3 then 0 else 2 + 1) ∧
    (Map2D.tick (⟨2, [0, 1, 2], 5, 100, none, 2, "1", 1, (0, 0)⟩ : Map2D ℕ)).currentStep < 3 ∧
    (Map2D.tick (⟨2, [0, 1, 2], 5, 100, none, 2, "1", 1, (0, 0)⟩ : Map2D ℕ)).contactCircles = 0 := by
  have base := Map2D.tick_stays_in_range
    (⟨2, [0, 1, 2], 5, 100, none, 2, "1", 1, (0, 0)⟩ : Map2D ℕ) (by decide)
  exact ⟨by decide, base.1, base.2.1, base.2.2.1 (by decide)⟩

/-- C9: for positive `newSpeed`, `setSpeed` sets the animation interval to
`1000 / newSpeed` milliseconds and re-installs the timer with that interval,
leaving the current frame index and every other `Map2D` field (trajectory
data, floor, scale factor, color scale, contact layer, timer step)
unchanged. -/
theorem Map2D.setSpeed_effect {F : Type} (m : Map2D F) (newSpeed : ℚ)
    (h : 0 < newSpeed) :
    (m.setSpeed newSpeed).animationInterval = 1000 / newSpeed ∧
    (m.setSpeed newSpeed).installedInterval = some (1000 / newSpeed) ∧
    (m.setSpeed newSpeed).currentStep = m.currentStep ∧
    (m.setSpeed newSpeed).trajectories = m.trajectories ∧
    (m.setSpeed newSpeed).floor = m.floor ∧
    (m.setSpeed newSpeed).scaleFactor = m.scaleFactor ∧
    (m.setSpeed newSpeed).colorDomain = m.colorDomain ∧
    (m.setSpeed newSpeed).contactCircles = m.contactCircles ∧
    (m.setSpeed newSpeed).timerStep = m.timerStep :=
  ⟨rfl, rfl, rfl, rfl, rfl, rfl, rfl, rfl, rfl⟩

theorem Map2D.setSpeed_effect_witness :
    (0 : ℚ) < 4 ∧
    ((⟨2, [0, 1, 2], 5, 100, none, 2, "1", 1, (0, 0)⟩ : Map2D ℕ).setSpeed 4).animationInterval
      = 1000 / 4 ∧
    ((⟨2, [0, 1, 2], 5, 100, none, 2, "1", 1, (0, 0)⟩ : Map2D ℕ).setSpeed 4).installedInterval
      = some (1000 / 4) ∧
    ((⟨2, [0, 1, 2], 5, 100, none, 2, "1", 1, (0, 0)⟩ : Map2D ℕ).setSpeed 4).currentStep = 2 :=
  ⟨by norm_num,
   (Map2D.setSpeed_effect (⟨2, [0, 1, 2], 5, 100, none, 2, "1", 1, (0, 0)⟩ : Map2D ℕ) 4
      (by norm_num)).1,
   (Map2D.setSpeed_effect (⟨2, [0, 1, 2], 5, 100, none, 2, "1", 1, (0, 0)⟩ : Map2D ℕ) 4
      (by norm_num)).2.1,
   (Map2D.setSpeed_effect (⟨2, [0, 1, 2], 5, 100, none, 2, "1", 1, (0, 0)⟩ : Map2D ℕ) 4
      (by norm_num)).2.2.1⟩

/-- A row of the pair-contact table returned by `/{simId}/pair`.  `N_Contacts`
is numeric in the JSON; `TotalContactDuration` arrives as a decimal string and
is modelled here by the rational value `parseFloat` yields on it. -/
structure PairRow where
  Agent1 : String
  Agent2 : String
  N_Contacts : ℚ
  TotalContactDuration : ℚ
deriving DecidableEq, Repr

/-- Lodash `_.union` of the two agent columns: the distinct values of the
concatenation, in order of first occurrence. -/
def lodashUnion (l : List String) : List String :=
  l.foldl (fun acc a => if a ∈ acc then acc else acc ++ [a]) []

/-- The number of decimal digits before the point of `x ≥ 1`, minus one:
repeatedly divide by 10 while at least 10.  `fuel` bounds the number of
divisions (408 covers every double). -/
def decExpAux : ℕ → ℚ → ℕ
  | 0, _ => 0
  | fuel + 1, x => if 10 ≤ x then decExpAux fuel (x / 10) + 1 else 0

/-- The decimal exponent `⌊log₁₀ x⌋` of a positive rational (within the
double exponent range). -/
def decExp (x : ℚ) : ℤ :=
  if 1 ≤ x then (decExpAux 408 x : ℤ)
  else
    let e := decExpAux 408 x⁻¹
    if (10 : ℚ) ^ (-(e : ℤ)) ≤ x then -(e : ℤ) else -(e : ℤ) - 1

/-- JavaScript `Number.prototype.toPrecision(2)` on a positive rational: round
to two significant decimal digits, ties away from zero (ECMAScript picks the
larger candidate on a tie); non-positive arguments are left unchanged (the
code only applies it to positive averages). -/
def toPrecision2 (x : ℚ) : ℚ :=
  if x ≤ 0 then x
  else
    let scale := (10 : ℚ) ^ (decExp x - 1)
    ((⌊x / scale + 1 / 2⌋ : ℤ) : ℚ) * scale

/-- One derived entry of `chartData`: the agent id `a`, its total contacts `x`
and its rounded average contact duration `y`. -/
structure ChartEntry where
  a : String
  x : ℚ
  y : ℚ
deriving DecidableEq, Repr

/-- The `chartData` derivation of `getPairContacts`: map over the union of the
`Agent1` and `Agent2` columns; for each agent filter the rows mentioning it
(`Agent1 === agent || Agent2 === agent`), let `x` be the sum of their
`N_Contacts` and `y` the sum of their parsed `TotalContactDuration` divided by
`x` and rounded with `toPrecision(2)`. -/
def pairContactsChartData (rows : List PairRow) : List ChartEntry :=
  (lodashUnion ((rows.map fun r => r.Agent1) ++ (rows.map fun r => r.Agent2))).map
    fun agent =>
      let agentGrp := rows.filter fun f => f.Agent1 = agent ∨ f.Agent2 = agent
      let totalContactsPerAgent := (agentGrp.map fun r => r.N_Contacts).sum
      let avgContactDurationPerAgent :=
        toPrecision2 ((agentGrp.map fun r => r.TotalContactDuration).sum /
          totalContactsPerAgent)
      ⟨agent, totalContactsPerAgent, avgContactDurationPerAgent⟩

/-- The worked example of the claim: rows
`[{Agent1:"a",Agent2:"b",N_Contacts:3,TotalContactDuration:"9"},
  {Agent1:"a",Agent2:"c",N_Contacts:1,TotalContactDuration:"2"}]`. -/
def examplePairRows : List PairRow :=
  [⟨"a", "b", 3, 9⟩, ⟨"a", "c", 1, 2⟩]

theorem decExpAux_step (f : ℕ) (x : ℚ) :
    decExpAux (f + 1) x = if 10 ≤ x then decExpAux f (x / 10) + 1 else 0 := rfl

theorem decExp_eq_zero (x : ℚ) (h1 : 1 ≤ x) (h10 : x < 10) : decExp x = 0 := by
  unfold decExp
  rw [if_pos h1]
  have h2 : decExpAux 408 x = 0 := by
    show decExpAux (407 + 1) x = 0
    rw [decExpAux_step, if_neg (not_le.mpr h10)]
  rw [h2]
  rfl

theorem toPrecision2_eval (x r : ℚ) (e m : ℤ) (hx : 0 < x) (hd : decExp x = e)
    (hfl : ⌊x / 10 ^ (e - 1) + 1 / 2⌋ = m) (hr : (m : ℚ) * 10 ^ (e - 1) = r) :
    toPrecision2 x = r := by
  unfold toPrecision2
  rw [if_neg (not_le.mpr hx)]
  dsimp only
  rw [hd, hfl, hr]

theorem toPrecision2_eleven_fourths : toPrecision2 (11 / 4 : ℚ) = 14 / 5 := by
  refine toPrecision2_eval _ _ 0 28 (by norm_num)
    (decExp_eq_zero _ (by norm_num) (by norm_num)) ?_ (by norm_num)
  rw [Int.floor_eq_iff]
  norm_num

theorem toPrecision2_three : toPrecision2 (3 : ℚ) = 3 := by
  refine toPrecision2_eval _ _ 0 30 (by norm_num)
    (decExp_eq_zero _ (by norm_num) (by norm_num)) ?_ (by norm_num)
  rw [Int.floor_eq_iff]
  norm_num

theorem toPrecision2_two : toPrecision2 (2 : ℚ) = 2 := by
  refine toPrecision2_eval _ _ 0 20 (by norm_num)
    (decExp_eq_zero _ (by norm_num) (by norm_num)) ?_ (by norm_num)
  rw [Int.floor_eq_iff]
  norm_num

theorem examplePairRows_union :
    lodashUnion ((examplePairRows.map fun r => r.Agent1) ++
        (examplePairRows.map fun r => r.Agent2)) = ["a", "b", "c"] := by
  decide

theorem pairContactsChartData_example :
    pairContactsChartData examplePairRows =
      [⟨"a", 4, 14 / 5⟩, ⟨"b", 3, 3⟩, ⟨"c", 1, 2⟩] := by
  rw [pairContactsChartData, examplePairRows_union]
  simp only [List.map_cons, List.map_nil]
  have ha : (examplePairRows.filter fun f => f.Agent1 = "a" ∨ f.Agent2 = "a") =
      examplePairRows := by decide
  have hb : (examplePairRows.filter fun f => f.Agent1 = "b" ∨ f.Agent2 = "b") =
      [⟨"a", "b", 3, 9⟩] := by decide
  have hc : (examplePairRows.filter fun f => f.Agent1 = "c" ∨ f.Agent2 = "c") =
      [⟨"a", "c", 1, 2⟩] := by decide
  rw [ha, hb, hc]
  simp only [examplePairRows, List.map_cons, List.map_nil, List.sum_cons,
    List.sum_nil]
  norm_num [toPrecision2_eleven_fourths, toPrecision2_three, toPrecision2_two]

/-- C4 fails as stated: on the claim's own example, agent "a" derives to
`y = 2.8` — eleven fourths rounded to two significant decimal digits by
`toPrecision(2)` — not to `y = 2.75` as the claim asserts (2.75 has three
significant digits). -/
theorem pairContacts_example_y_not_2_75 :
    pairContactsChartData examplePairRows =
      [⟨"a", 4, 14 / 5⟩, ⟨"b", 3, 3⟩, ⟨"c", 1, 2⟩] ∧
    (14 : ℚ) / 5 ≠ 11 / 4 := by
  refine ⟨pairContactsChartData_example, by norm_num⟩

/-- C4 (amended): for every agent appearing as `Agent1` or `Agent2` in any
row, `chartData` contains the entry whose `x` is the sum of `N_Contacts` over
the rows mentioning the agent and whose `y` is the sum of
`TotalContactDuration` over those rows divided by `x` and rounded to 2
significant decimal digits by `toPrecision(2)`; on the worked example agent
"a" derives to `x = 4`, `y = 2.8` (not 2.75), "b" to `x = 3`, `y = 3.0`, and
"c" to `x = 1`, `y = 2.0`. -/
theorem pairContacts_perAgent_stats (rows : List PairRow) (agent : String)
    (hmem : agent ∈
      lodashUnion ((rows.map fun r => r.Agent1) ++ (rows.map fun r => r.Agent2))) :
    (⟨agent,
      ((rows.filter fun f => f.Agent1 = agent ∨ f.Agent2 = agent).map
        fun r => r.N_Contacts).sum,
      toPrecision2
        (((rows.filter fun f => f.Agent1 = agent ∨ f.Agent2 = agent).map
            fun r => r.TotalContactDuration).sum /
          ((rows.filter fun f => f.Agent1 = agent ∨ f.Agent2 = agent).map
            fun r => r.N_Contacts).sum)⟩ : ChartEntry) ∈
      pairContactsChartData rows ∧
    pairContactsChartData examplePairRows =
      [⟨"a", 3 + 1, toPrecision2 ((9 + 2) / (3 + 1))⟩,
       ⟨"b", 3, toPrecision2 (9 / 3)⟩, ⟨"c", 1, toPrecision2 (2 / 1)⟩] ∧
    toPrecision2 ((9 + 2) / (3 + 1) : ℚ) = 14 / 5 ∧
    toPrecision2 ((9 : ℚ) / 3) = 3 ∧
    toPrecision2 ((2 : ℚ) / 1) = 2 := by
  refine ⟨List.mem_map_of_mem _ hmem, ?_, ?_, ?_, ?_⟩
  · rw [pairContactsChartData_example]
    norm_num [toPrecision2_eleven_fourths, toPrecision2_three, toPrecision2_two]
  · rw [(by norm_num : ((9 + 2) / (3 + 1) : ℚ) = 11 / 4), toPrecision2_eleven_fourths]
  · rw [(by norm_num : ((9 : ℚ) / 3) = 3), toPrecision2_three]
  · rw [(by norm_num : ((2 : ℚ) / 1) = 2), toPrecision2_two]

theorem pairContacts_perAgent_stats_witness :
    ("a" ∈ lodashUnion ((examplePairRows.map fun r => r.Agent1) ++
        (examplePairRows.map fun r => r.Agent2))) ∧
    (⟨"a",
      ((examplePairRows.filter fun f => f.Agent1 = "a" ∨ f.Agent2 = "a").map
        fun r => r.N_Contacts).sum,
      toPrecision2
        (((examplePairRows.filter fun f => f.Agent1 = "a" ∨ f.Agent2 = "a").map
            fun r => r.TotalContactDuration).sum /
          ((examplePairRows.filter fun f => f.Agent1 = "a" ∨ f.Agent2 = "a").map
            fun r => r.N_Contacts).sum)⟩ : ChartEntry) ∈
      pairContactsChartData examplePairRows :=
  ⟨by decide, (pairContacts_perAgent_stats examplePairRows "a" (by decide)).1⟩

end Citam
